import Mathlib

/-!
Verification of the `StorageVec` container from `storagevec-rs` (`src/svec.rs`).

`StorageVec<T, N>` has three compile-time backends selected by the `alloc` and
`stack` cargo features:

* `not(alloc)`                 : tinyvec `ArrayVec<[UninitContainer<T>; N]>` (fixed capacity N);
* `alloc ∧ not(stack)`         : `alloc::vec::Vec<T>` (heap, unbounded);
* `alloc ∧ stack`              : tinyvec `TinyVec<[UninitContainer<T>; N]>` (hybrid: inline
                                 up to N elements, then a one-way spill to the heap).

The model below embeds each backend as a constructor of `SVState`: the hybrid
backend gets two constructors, one per `TinyVec` mode (`Inline` / `Heap`).
The observable element sequence (what `Deref<Target = [T]>` exposes) is a
`List T`.  Panics of the Rust code (index assertions of the underlying
buffers, the capacity-overflow `panic!` of `push`/`insert`, and slice-index
failures) are modelled as `Except PanicKind`.  Arithmetic on `usize` is `Nat`
with wrapping written out explicitly where the source can underflow
(release-profile semantics of `len() - 1`; the debug profile instead aborts at
the subtraction itself, which is a panic at the same inputs).

The semantics of the external buffer types (`tinyvec::ArrayVec`,
`tinyvec::TinyVec`, `alloc::vec::Vec`) follows their documented contracts:
`ArrayVec::try_push` hands the element back when `len == capacity`;
`ArrayVec::try_insert` first asserts `index <= len` (panicking otherwise) and
then hands the element back when full; `Vec::insert` / `TinyVec::insert`
panic when `index > len`; all three `remove`s panic when `index >= len`;
`TinyVec::push`/`insert` move every element to the heap, preserving order,
when the inline array is full and never return an error.
-/

set_option autoImplicit false

namespace StorageVec

universe u

variable {T : Type u} {N : Nat}

/-- The three compile-time backends of `StorageVec`. -/
inductive Backend where
  | fixed
  | heap
  | hybrid
  deriving DecidableEq, Repr

/-- The cargo feature switches `alloc` and `stack` that select the backend. -/
structure Features where
  alloc : Bool
  stack : Bool
  deriving DecidableEq, Repr

/-- Which backend a feature combination compiles to (`cfg` lines of svec.rs):
`not(alloc)` gives the `ArrayVec` backend, `alloc ∧ not(stack)` the `Vec`
backend, `alloc ∧ stack` the `TinyVec` backend. -/
def backendOf (f : Features) : Backend :=
  if f.alloc then (if f.stack then Backend.hybrid else Backend.heap) else Backend.fixed

/-- The guard `cfg(any(not(feature = "alloc"), not(feature = "stack")))` that
gates BOTH the `ExactSizeIterator` and the `DoubleEndedIterator` impl of
`StorageVecIterator` (svec.rs lines 337 and 340). -/
def cfgDoubleEnded (f : Features) : Bool :=
  (!f.alloc) || (!f.stack)

/-- The distinct fatal-termination sites of the code. -/
inductive PanicKind where
  | capacityOverflow
  | indexOutOfBounds
  deriving DecidableEq, Repr

/-- State of a `StorageVec<T, N>`: one constructor per compiled representation.
The hybrid (`TinyVec`) backend is split into its `Inline` and `Heap` modes.
The list is the observable element sequence exposed by `Deref`. -/
inductive SVState (T : Type u) (N : Nat) where
  | fixed (elems : List T)
  | heap (elems : List T)
  | hybridInline (elems : List T)
  | hybridHeap (elems : List T)
  deriving DecidableEq, Repr

/-- The element sequence exposed by `Deref<Target = [T]>`. -/
def svElems : SVState T N → List T
  | SVState.fixed elems => elems
  | SVState.heap elems => elems
  | SVState.hybridInline elems => elems
  | SVState.hybridHeap elems => elems

/-- `self.len()` (length of the deref slice). -/
def svLen (s : SVState T N) : Nat :=
  (svElems s).length

/-- Which backend a state belongs to. -/
def svBackend : SVState T N → Backend
  | SVState.fixed _ => Backend.fixed
  | SVState.heap _ => Backend.heap
  | SVState.hybridInline _ => Backend.hybrid
  | SVState.hybridHeap _ => Backend.hybrid

/-- Representation invariant: the inline array backends hold at most N
elements (`ArrayVec` and the `Inline` mode of `TinyVec` physically cannot
exceed their capacity). -/
def WF : SVState T N → Prop
  | SVState.fixed elems => elems.length ≤ N
  | SVState.heap _ => True
  | SVState.hybridInline elems => elems.length ≤ N
  | SVState.hybridHeap _ => True

instance (s : SVState T N) : Decidable (WF s) := by
  cases s <;> simp only [WF] <;> infer_instance

/-- `StorageVec::new` on each backend (empty container). -/
def svNew (T : Type u) (N : Nat) : Backend → SVState T N
  | Backend.fixed => SVState.fixed []
  | Backend.heap => SVState.heap []
  | Backend.hybrid => SVState.hybridInline []

/-- `StorageVec::try_push` (svec.rs lines 155-181).  The first component is
the `Result<(), T>` payload: `none` is `Ok(())`, `some item` is `Err(item)`.
Fixed backend: `ArrayVec::try_push` rejects exactly when the array is full.
Heap backend: `Vec::push`, always `Ok`.  Hybrid backend: `TinyVec::push`
spills (moving all elements, in order, to the heap) when the inline array is
full, and always returns `Ok`. -/
def tryPush (s : SVState T N) (item : T) : Option T × SVState T N :=
  match s with
  | SVState.fixed elems =>
      if elems.length < N then (none, SVState.fixed (elems ++ [item]))
      else (some item, SVState.fixed elems)
  | SVState.heap elems => (none, SVState.heap (elems ++ [item]))
  | SVState.hybridInline elems =>
      if elems.length = N then (none, SVState.hybridHeap (elems ++ [item]))
      else (none, SVState.hybridInline (elems ++ [item]))
  | SVState.hybridHeap elems => (none, SVState.hybridHeap (elems ++ [item]))

/-- `StorageVec::push` (svec.rs lines 185-189): panics with a
capacity-overflow message when `try_push` rejects. -/
def push (s : SVState T N) (item : T) : Except PanicKind (SVState T N) :=
  match tryPush s item with
  | (none, s') => Except.ok s'
  | (some _, _) => Except.error PanicKind.capacityOverflow

/-- `StorageVec::pop` (svec.rs lines 193-213): delegates to the backend pop;
`none` when empty, otherwise removes and returns the last element.  The
hybrid backend never leaves heap mode (`TinyVec::pop` does not un-spill). -/
def svPop (s : SVState T N) : Option T × SVState T N :=
  match s with
  | SVState.fixed elems =>
      (elems.getLast?, SVState.fixed elems.dropLast)
  | SVState.heap elems =>
      (elems.getLast?, SVState.heap elems.dropLast)
  | SVState.hybridInline elems =>
      (elems.getLast?, SVState.hybridInline elems.dropLast)
  | SVState.hybridHeap elems =>
      (elems.getLast?, SVState.hybridHeap elems.dropLast)

/-- Insertion at an index, shifting the suffix one slot toward the end
(the slot-shifting loop of the underlying buffers; defined for index ≤
length, which every caller below guards). -/
def listInsertAt : List T → Nat → T → List T
  | l, 0, x => x :: l
  | [], _ + 1, x => [x]
  | y :: l, n + 1, x => y :: listInsertAt l n x

/-- `StorageVec::try_insert` (svec.rs lines 222-248).  Payload as in
`tryPush`.  Fixed backend: `ArrayVec::try_insert` asserts `index <= len`
first (panicking on violation), then rejects with the element when full.
Heap backend: `Vec::insert`, which panics when `index > len` and otherwise
succeeds.  Hybrid backend: `TinyVec::insert`, which panics when
`index > len`, spills when the inline array is full, and otherwise
succeeds. -/
def tryInsert (s : SVState T N) (item : T) (index : Nat) :
    Except PanicKind (Option T × SVState T N) :=
  match s with
  | SVState.fixed elems =>
      if index > elems.length then Except.error PanicKind.indexOutOfBounds
      else if elems.length < N then
        Except.ok (none, SVState.fixed (listInsertAt elems index item))
      else Except.ok (some item, SVState.fixed elems)
  | SVState.heap elems =>
      if index > elems.length then Except.error PanicKind.indexOutOfBounds
      else Except.ok (none, SVState.heap (listInsertAt elems index item))
  | SVState.hybridInline elems =>
      if index > elems.length then Except.error PanicKind.indexOutOfBounds
      else if elems.length = N then
        Except.ok (none, SVState.hybridHeap (listInsertAt elems index item))
      else Except.ok (none, SVState.hybridInline (listInsertAt elems index item))
  | SVState.hybridHeap elems =>
      if index > elems.length then Except.error PanicKind.indexOutOfBounds
      else Except.ok (none, SVState.hybridHeap (listInsertAt elems index item))

/-- `StorageVec::insert` (svec.rs lines 252-256): panics with a
capacity-overflow message when `try_insert` rejects; a panic inside
`try_insert` propagates. -/
def insert (s : SVState T N) (item : T) (index : Nat) :
    Except PanicKind (SVState T N) :=
  match tryInsert s item index with
  | Except.error p => Except.error p
  | Except.ok (some _, _) => Except.error PanicKind.capacityOverflow
  | Except.ok (none, s') => Except.ok s'

/-- `2 ^ 64`: the modulus of `usize` arithmetic on a 64-bit target. -/
def USIZE : Nat := 2 ^ 64

/-- The `usize` expression `len - 1` with release-profile wrapping semantics
(`0 - 1` wraps to `USIZE - 1`; a debug build instead aborts on the
underflow, i.e. panics at the same input). -/
def usizeSub1 (n : Nat) : Nat :=
  (n + (USIZE - 1)) % USIZE

/-- The backend `remove` (`ArrayVec::remove` / `Vec::remove` /
`TinyVec::remove`, reached through `remove_impl`, svec.rs lines 268-279):
removes the element at `index`, shifting the suffix toward the start;
panics when `index >= len`. -/
def removeImpl (s : SVState T N) (index : Nat) :
    Except PanicKind (T × SVState T N) :=
  match s with
  | SVState.fixed elems =>
      match elems[index]? with
      | some x => Except.ok (x, SVState.fixed (elems.eraseIdx index))
      | none => Except.error PanicKind.indexOutOfBounds
  | SVState.heap elems =>
      match elems[index]? with
      | some x => Except.ok (x, SVState.heap (elems.eraseIdx index))
      | none => Except.error PanicKind.indexOutOfBounds
  | SVState.hybridInline elems =>
      match elems[index]? with
      | some x => Except.ok (x, SVState.hybridInline (elems.eraseIdx index))
      | none => Except.error PanicKind.indexOutOfBounds
  | SVState.hybridHeap elems =>
      match elems[index]? with
      | some x => Except.ok (x, SVState.hybridHeap (elems.eraseIdx index))
      | none => Except.error PanicKind.indexOutOfBounds

/-- `StorageVec::remove` (svec.rs lines 260-266), verbatim:

    if index >= self.len() - 1 { None } else { Some(self.remove_impl(index)) }

The guard compares against `len - 1` (not `len`), and `len() - 1` is `usize`
arithmetic, so on an empty container it wraps (release) or aborts (debug). -/
def remove (s : SVState T N) (index : Nat) :
    Except PanicKind (Option T × SVState T N) :=
  if index ≥ usizeSub1 (svLen s) then Except.ok (none, s)
  else
    match removeImpl s index with
    | Except.ok (x, s') => Except.ok (some x, s')
    | Except.error p => Except.error p

/-- `Clone for StorageVec` (svec.rs lines 368-395).  Heap backend:
`Vec::clone`.  Fixed and hybrid backends go through `cloner`, which
allocates an inline array `[UninitContainer<T>; N]` and writes the clone of
element `i` to `arr[i]` for every `i < self.len()` — an index out of bounds
panic whenever `len > N` (possible only for a spilled hybrid) — and then
rebuild with `from_array_len(arr, len)`, which for `TinyVec` with
`len ≤ N` produces the `Inline` mode. -/
def svClone (s : SVState T N) : Except PanicKind (SVState T N) :=
  match s with
  | SVState.fixed elems =>
      if elems.length > N then Except.error PanicKind.indexOutOfBounds
      else Except.ok (SVState.fixed elems)
  | SVState.heap elems => Except.ok (SVState.heap elems)
  | SVState.hybridInline elems =>
      if elems.length > N then Except.error PanicKind.indexOutOfBounds
      else Except.ok (SVState.hybridInline elems)
  | SVState.hybridHeap elems =>
      if elems.length > N then Except.error PanicKind.indexOutOfBounds
      else Except.ok (SVState.hybridInline elems)

/-- `StorageVecIterator<T, N>` (svec.rs lines 284-296): the owning iterator.
Each compiled inner iterator (`ArrayVecIterator`, `vec::IntoIter`,
`TinyVecIterator`) is a cursor over the not-yet-yielded elements. -/
structure SVIter (T : Type u) (N : Nat) where
  backend : Backend
  remaining : List T
  deriving DecidableEq, Repr

/-- `IntoIterator for StorageVec` (svec.rs lines 404-412): the iterator
starts holding every element, in order. -/
def intoIter (s : SVState T N) : SVIter T N :=
  ⟨svBackend s, svElems s⟩

/-- `Iterator::next` (svec.rs lines 312-335): yields the front element. -/
def iterNext (it : SVIter T N) : Option T × SVIter T N :=
  match it.remaining with
  | [] => (none, it)
  | x :: xs => (some x, ⟨it.backend, xs⟩)

/-- `DoubleEndedIterator::next_back` (svec.rs lines 341-357): yields the back
element.  Compiled only under `cfg(any(not(alloc), not(stack)))`, i.e. not
for the hybrid backend — see `cfgDoubleEnded`. -/
def iterNextBack (it : SVIter T N) : Option T × SVIter T N :=
  match it.remaining.getLast? with
  | none => (none, it)
  | some x => (some x, ⟨it.backend, it.remaining.dropLast⟩)

/-- `Iterator::size_hint` (svec.rs lines 332-334): delegates to the inner
iterator, which reports the exact remaining count. -/
def iterSizeHint (it : SVIter T N) : Nat × Option Nat :=
  (it.remaining.length, some it.remaining.length)

/-- Draining the iterator with repeated `next` and collecting the yields. -/
def iterCollect : SVIter T N → List T
  | ⟨_, []⟩ => []
  | ⟨b, x :: xs⟩ => x :: iterCollect ⟨b, xs⟩

/-- Consuming the iterator under an arbitrary schedule of directions
(`true` = `next`, `false` = `next_back`); returns the front yields, the back
yields (in consumption order), and the final iterator. -/
def iterConsume : List Bool → SVIter T N → List T × List T × SVIter T N
  | [], it => ([], [], it)
  | true :: ds, it =>
      match iterNext it with
      | (none, it') => iterConsume ds it'
      | (some x, it') =>
          let r := iterConsume ds it'
          (x :: r.1, r.2.1, r.2.2)
  | false :: ds, it =>
      match iterNextBack it with
      | (none, it') => iterConsume ds it'
      | (some x, it') =>
          let r := iterConsume ds it'
          (r.1, x :: r.2.1, r.2.2)

/-- A sequence of `try_push` calls; the Boolean is `true` when every push
returned `Ok` (it stops at the first rejection). -/
def tryPushSeq (s : SVState T N) : List T → Bool × SVState T N
  | [] => (true, s)
  | x :: xs =>
      match tryPush s x with
      | (none, s') => tryPushSeq s' xs
      | (some _, s') => (false, s')

/-- `k` successive `pop` calls, collecting the values yielded. -/
def popN (s : SVState T N) : Nat → List T × SVState T N
  | 0 => ([], s)
  | k + 1 =>
      match svPop s with
      | (some x, s') =>
          let r := popN s' k
          (x :: r.1, r.2)
      | (none, s') => ([], s')

/-! ## Basic lemmas about the embedding -/

lemma svBackend_svNew (T : Type u) (N : Nat) (b : Backend) :
    svBackend (svNew T N b) = b := by
  cases b <;> rfl

lemma svElems_svNew (T : Type u) (N : Nat) (b : Backend) :
    svElems (svNew T N b) = [] := by
  cases b <;> rfl

lemma svPop_spec (s : SVState T N) :
    (svPop s).1 = (svElems s).getLast?
    ∧ svElems (svPop s).2 = (svElems s).dropLast
    ∧ svBackend (svPop s).2 = svBackend s := by
  cases s <;> simp [svPop, svElems, svBackend]

lemma tryPushSeq_spec (xs : List T) : ∀ s : SVState T N,
    (svBackend s = Backend.fixed → svLen s + xs.length ≤ N) →
    (tryPushSeq s xs).1 = true
    ∧ svElems (tryPushSeq s xs).2 = svElems s ++ xs
    ∧ svBackend (tryPushSeq s xs).2 = svBackend s := by
  induction xs with
  | nil => intro s _; simp [tryPushSeq]
  | cons x xs ih =>
      intro s h
      cases s with
      | fixed elems =>
          have hlt : elems.length < N := by
            have h2 := h rfl
            simp [svLen, svElems] at h2
            omega
          have hstep : tryPushSeq (SVState.fixed elems : SVState T N) (x :: xs)
              = tryPushSeq (SVState.fixed (elems ++ [x])) xs := by
            simp [tryPushSeq, tryPush, hlt]
          have h3 := ih (SVState.fixed (elems ++ [x])) (by
            intro _
            have h2 := h rfl
            simp [svLen, svElems] at h2 ⊢
            omega)
          rw [hstep]
          refine ⟨h3.1, ?_, h3.2.2⟩
          rw [h3.2.1]
          simp [svElems]
      | heap elems =>
          have hstep : tryPushSeq (SVState.heap elems : SVState T N) (x :: xs)
              = tryPushSeq (SVState.heap (elems ++ [x])) xs := by
            simp [tryPushSeq, tryPush]
          have h3 := ih (SVState.heap (elems ++ [x])) (by intro hc; simp [svBackend] at hc)
          rw [hstep]
          refine ⟨h3.1, ?_, h3.2.2⟩
          rw [h3.2.1]
          simp [svElems]
      | hybridInline elems =>
          by_cases hN : elems.length = N
          · have hstep : tryPushSeq (SVState.hybridInline elems : SVState T N) (x :: xs)
                = tryPushSeq (SVState.hybridHeap (elems ++ [x])) xs := by
              simp [tryPushSeq, tryPush, hN]
            have h3 := ih (SVState.hybridHeap (elems ++ [x])) (by intro hc; simp [svBackend] at hc)
            rw [hstep]
            refine ⟨h3.1, ?_, ?_⟩
            · rw [h3.2.1]; simp [svElems]
            · rw [h3.2.2]; rfl
          · have hstep : tryPushSeq (SVState.hybridInline elems : SVState T N) (x :: xs)
                = tryPushSeq (SVState.hybridInline (elems ++ [x])) xs := by
              simp [tryPushSeq, tryPush, hN]
            have h3 := ih (SVState.hybridInline (elems ++ [x])) (by intro hc; simp [svBackend] at hc)
            rw [hstep]
            refine ⟨h3.1, ?_, h3.2.2⟩
            rw [h3.2.1]
            simp [svElems]
      | hybridHeap elems =>
          have hstep : tryPushSeq (SVState.hybridHeap elems : SVState T N) (x :: xs)
              = tryPushSeq (SVState.hybridHeap (elems ++ [x])) xs := by
            simp [tryPushSeq, tryPush]
          have h3 := ih (SVState.hybridHeap (elems ++ [x])) (by intro hc; simp [svBackend] at hc)
          rw [hstep]
          refine ⟨h3.1, ?_, h3.2.2⟩
          rw [h3.2.1]
          simp [svElems]

lemma popN_spec (xs : List T) : ∀ s : SVState T N, svElems s = xs →
    (popN s xs.length).1 = xs.reverse
    ∧ svElems (popN s xs.length).2 = []
    ∧ svBackend (popN s xs.length).2 = svBackend s := by
  induction xs using List.reverseRecOn with
  | nil => intro s h; simp [popN, h]
  | append_singleton ys y ih =>
      intro s h
      rcases hsp : svPop s with ⟨o, s'⟩
      have h1 : o = some y := by
        have hx := (svPop_spec s).1
        rw [hsp, h] at hx
        simpa using hx
      have h2 : svElems s' = ys := by
        have hx := (svPop_spec s).2.1
        rw [hsp, h] at hx
        simpa using hx
      have h3 : svBackend s' = svBackend s := by
        have hx := (svPop_spec s).2.2
        rw [hsp] at hx
        simpa using hx
      subst h1
      have ihy := ih s' h2
      have hlen : (ys ++ [y]).length = ys.length + 1 := by simp
      rw [hlen]
      simp only [popN, hsp]
      refine ⟨?_, ihy.2.1, by rw [ihy.2.2, h3]⟩
      rw [ihy.1]
      simp

lemma iterCollect_eq (b : Backend) (l : List T) :
    iterCollect (⟨b, l⟩ : SVIter T N) = l := by
  induction l with
  | nil => simp [iterCollect]
  | cons x xs ih => simp [iterCollect, ih]

lemma iterConsume_spec (ds : List Bool) : ∀ it : SVIter T N,
    (iterConsume ds it).1 ++ (iterConsume ds it).2.2.remaining
      ++ (iterConsume ds it).2.1.reverse = it.remaining := by
  induction ds with
  | nil => intro it; simp [iterConsume]
  | cons d ds ih =>
      intro it
      obtain ⟨b, rem⟩ := it
      cases d with
      | true =>
          cases rem with
          | nil => simpa [iterConsume, iterNext] using ih ⟨b, []⟩
          | cons x xs =>
              have hx := ih ⟨b, xs⟩
              simp only [iterConsume, iterNext]
              simpa using hx
      | false =>
          rcases rem.eq_nil_or_concat with h0 | ⟨l, a, hla⟩
          · subst h0
            simpa [iterConsume, iterNextBack] using ih ⟨b, []⟩
          · have hla2 : rem = l ++ [a] := by simpa [List.concat_eq_append] using hla
            subst hla2
            have hlast : (l ++ [a]).getLast? = some a := List.getLast?_concat l
            have hdrop : (l ++ [a]).dropLast = l := List.dropLast_concat
            have hx := ih ⟨b, l⟩
            simp only [iterConsume, iterNextBack, hlast, hdrop]
            simp only at hx
            simp [← List.append_assoc, hx]

/-! ## Claims -/

/-- C1: the claim says `remove(len - 1)` succeeds and returns the last
element on every non-empty container.  The code's guard
`index >= self.len() - 1` instead rejects the last valid index: on the
one-element container `[42]`, `remove(0)` reports absence and leaves the
container unchanged, on every backend. -/
theorem C1_remove_last_index_rejected :
    remove (SVState.fixed [42] : SVState Nat 4) 0
       = Except.ok (none, SVState.fixed [42])
    ∧ remove (SVState.heap [42] : SVState Nat 4) 0
       = Except.ok (none, SVState.heap [42])
    ∧ remove (SVState.hybridInline [42] : SVState Nat 4) 0
       = Except.ok (none, SVState.hybridInline [42])
    ∧ remove (SVState.hybridHeap [42] : SVState Nat 4) 0
       = Except.ok (none, SVState.hybridHeap [42]) := by
  refine ⟨?_, ?_, ?_, ?_⟩ <;> rfl

/-- C2: the claim says `remove(index)` for `index ≥ len` — including
`remove(0)` on an empty container — returns `None` and never panics.  On an
empty container `self.len() - 1` underflows: the release profile wraps it to
`2^64 - 1`, the guard passes, and the backend `remove` panics with an
index-out-of-bounds (a debug build aborts at the subtraction itself).  Shown
here on every backend. -/
theorem C2_remove_on_empty_panics :
    remove (SVState.fixed ([] : List Nat) : SVState Nat 4) 0
       = Except.error PanicKind.indexOutOfBounds
    ∧ remove (SVState.heap ([] : List Nat) : SVState Nat 4) 0
       = Except.error PanicKind.indexOutOfBounds
    ∧ remove (SVState.hybridInline ([] : List Nat) : SVState Nat 4) 0
       = Except.error PanicKind.indexOutOfBounds
    ∧ remove (SVState.hybridHeap ([] : List Nat) : SVState Nat 4) 0
       = Except.error PanicKind.indexOutOfBounds := by
  refine ⟨?_, ?_, ?_, ?_⟩ <;> rfl

/-- C3: on the fixed-capacity backend, `try_push` on a full container
(`len = N`) hands the rejected value back unchanged and leaves the state
untouched; on a non-full container it appends the value at position `len`
(incrementing the length) and succeeds. -/
theorem C3_fixed_try_push {T : Type u} {N : Nat} (elems : List T) (item : T) :
    (elems.length = N →
      tryPush (SVState.fixed elems : SVState T N) item = (some item, SVState.fixed elems))
    ∧ (elems.length < N →
      tryPush (SVState.fixed elems : SVState T N) item
        = (none, SVState.fixed (elems ++ [item]))) := by
  constructor
  · intro h
    simp [tryPush, h]
  · intro h
    simp [tryPush, h]

/-- Witness for C3 at `N = 2`: a full container rejects and an almost-full
container appends. -/
theorem C3_fixed_try_push_witness :
    tryPush (SVState.fixed [1, 2] : SVState Nat 2) 5 = (some 5, SVState.fixed [1, 2])
    ∧ tryPush (SVState.fixed [1] : SVState Nat 2) 5 = (none, SVState.fixed [1, 5]) :=
  ⟨(C3_fixed_try_push [1, 2] 5).1 (by decide), (C3_fixed_try_push [1] 5).2 (by decide)⟩

/-- C4: on the hybrid (`TinyVec`) backend `try_push` never rejects: any
single push on any hybrid state returns `Ok`, and any sequence of pushes
from a fresh container — in particular one of length `N + 1`, crossing the
inline-to-heap spill — succeeds entirely and leaves exactly the pushed
elements, in push order. -/
theorem C4_hybrid_push_never_fails {T : Type u} {N : Nat}
    (xs : List T) (s : SVState T N) (x : T) :
    (svBackend s = Backend.hybrid → (tryPush s x).1 = none)
    ∧ (tryPushSeq (svNew T N Backend.hybrid) xs).1 = true
    ∧ svElems (tryPushSeq (svNew T N Backend.hybrid) xs).2 = xs := by
  have hseq := tryPushSeq_spec xs (svNew T N Backend.hybrid) (by
    intro hc
    rw [svBackend_svNew] at hc
    cases hc)
  refine ⟨?_, hseq.1, by simpa [svElems_svNew] using hseq.2.1⟩
  intro hb
  cases s with
  | fixed elems => simp [svBackend] at hb
  | heap elems => simp [svBackend] at hb
  | hybridInline elems =>
      by_cases hN : elems.length = N <;> simp [tryPush, hN]
  | hybridHeap elems => simp [tryPush]

/-- Witness for C4 at `N = 2`: the third push (the `(N+1)`-th element)
succeeds on a full inline hybrid container, and pushing `[1, 2, 3]` from a
fresh hybrid container keeps every element in order across the spill. -/
theorem C4_hybrid_push_never_fails_witness :
    (tryPush (SVState.hybridInline [1, 2] : SVState Nat 2) 3).1 = none
    ∧ (tryPushSeq (svNew Nat 2 Backend.hybrid) [1, 2, 3]).1 = true
    ∧ svElems (tryPushSeq (svNew Nat 2 Backend.hybrid) [1, 2, 3]).2 = [1, 2, 3] :=
  ⟨(C4_hybrid_push_never_fails [1, 2, 3] (SVState.hybridInline [1, 2]) 3).1 rfl,
   (C4_hybrid_push_never_fails [1, 2, 3] (SVState.hybridInline [1, 2]) 3).2.1,
   (C4_hybrid_push_never_fails [1, 2, 3] (SVState.hybridInline [1, 2]) 3).2.2⟩

/-- C5 counterexample: the claim says the owning iterator supports
`next_back` on the Fixed-Capacity, Hybrid, and Heap backends alike.  The
`cfg(any(not(alloc), not(stack)))` guard on the `DoubleEndedIterator` (and
`ExactSizeIterator`) impls is false exactly for the feature combination
`alloc ∧ stack` — which is the Hybrid backend — so the hybrid iterator has
no `next_back` at all. -/
theorem C5_hybrid_not_double_ended :
    cfgDoubleEnded ⟨true, true⟩ = false
    ∧ backendOf ⟨true, true⟩ = Backend.hybrid := by
  refine ⟨rfl, rfl⟩

/-- C5 (amended): the owning iterator yields the elements in original order
and its `size_hint` reports the exact remaining count on every backend; the
`DoubleEndedIterator`/`ExactSizeIterator` impls are compiled exactly for the
feature combinations that are NOT the hybrid backend; `next_back` (where
compiled) yields from the back; and under any interleaving of forward and
backward consumption the front yields, the remaining elements, and the back
yields (reversed) partition the original sequence — the cursors meet in the
middle. -/
theorem C5_iterator_behaviour {T : Type u} {N : Nat}
    (s : SVState T N) (f : Features) (ds : List Bool) :
    iterCollect (intoIter s) = svElems s
    ∧ iterSizeHint (intoIter s) = (svLen s, some (svLen s))
    ∧ (cfgDoubleEnded f = true ↔ backendOf f ≠ Backend.hybrid)
    ∧ (iterNextBack (intoIter s)).1 = (svElems s).getLast?
    ∧ (iterConsume ds (intoIter s)).1 ++ (iterConsume ds (intoIter s)).2.2.remaining
        ++ (iterConsume ds (intoIter s)).2.1.reverse = svElems s := by
  refine ⟨iterCollect_eq _ _, rfl, ?_, ?_, iterConsume_spec ds (intoIter s)⟩
  · rcases f with ⟨a, st⟩
    cases a <;> cases st <;> simp [cfgDoubleEnded, backendOf]
  · cases h : (svElems s).getLast? <;> simp [iterNextBack, intoIter, h]

/-- C6: on the fixed-capacity backend with `len = N`, the non-`try` entry
points `push` and `insert` panic — with the capacity-overflow message for
every in-range index, and with the underlying buffer's index assertion for
an out-of-range index — and never silently drop the value; with `len < N`
they perform exactly the successful `try_*` effect. -/
theorem C6_fixed_push_insert_fatal {T : Type u} {N : Nat}
    (elems : List T) (item : T) (index : Nat) :
    (elems.length = N →
      push (SVState.fixed elems : SVState T N) item
          = Except.error PanicKind.capacityOverflow
      ∧ (index ≤ elems.length →
          insert (SVState.fixed elems : SVState T N) item index
            = Except.error PanicKind.capacityOverflow)
      ∧ (index > elems.length →
          insert (SVState.fixed elems : SVState T N) item index
            = Except.error PanicKind.indexOutOfBounds))
    ∧ (elems.length < N →
      push (SVState.fixed elems : SVState T N) item
          = Except.ok (SVState.fixed (elems ++ [item]))
      ∧ (index ≤ elems.length →
          insert (SVState.fixed elems : SVState T N) item index
            = Except.ok (SVState.fixed (listInsertAt elems index item)))) := by
  constructor
  · intro hN
    refine ⟨?_, ?_, ?_⟩
    · simp [push, tryPush, hN]
    · intro hle
      have hnlt : ¬ N < index := by omega
      simp [insert, tryInsert, hN, Nat.not_lt.mpr hle, hnlt]
    · intro hgt
      simp [insert, tryInsert, hgt]
  · intro hlt
    refine ⟨?_, ?_⟩
    · simp [push, tryPush, hlt]
    · intro hle
      simp [insert, tryInsert, hlt, Nat.not_lt.mpr hle]

/-- Witness for C6 at `N = 2`: a full container panics on `push` and on
`insert` at index 0 (capacity overflow) and at index 3 (index assertion); a
non-full container pushes and inserts like the `try_*` versions. -/
theorem C6_fixed_push_insert_fatal_witness :
    (push (SVState.fixed [1, 2] : SVState Nat 2) 5
        = Except.error PanicKind.capacityOverflow
      ∧ insert (SVState.fixed [1, 2] : SVState Nat 2) 5 0
        = Except.error PanicKind.capacityOverflow
      ∧ insert (SVState.fixed [1, 2] : SVState Nat 2) 5 3
        = Except.error PanicKind.indexOutOfBounds)
    ∧ (push (SVState.fixed [1] : SVState Nat 2) 5
        = Except.ok (SVState.fixed [1, 5])
      ∧ insert (SVState.fixed [1] : SVState Nat 2) 5 0
        = Except.ok (SVState.fixed [5, 1])) := by
  exact ⟨⟨((C6_fixed_push_insert_fatal [1, 2] 5 0).1 rfl).1,
          ((C6_fixed_push_insert_fatal [1, 2] 5 0).1 rfl).2.1 (by decide),
          ((C6_fixed_push_insert_fatal [1, 2] 5 3).1 rfl).2.2 (by decide)⟩,
         ((C6_fixed_push_insert_fatal [1] 5 0).2 (by decide)).1,
         ((C6_fixed_push_insert_fatal [1] 5 0).2 (by decide)).2 (by decide)⟩

/-- C7: from a fresh container on any backend, a sequence of `k` pushes
(with `k ≤ N` required only on the fixed backend) fully succeeds, leaves
`len = k`, and `k` subsequent pops yield exactly the pushed values in
reverse push order, after which `pop` returns `none`. -/
theorem C7_push_pop_roundtrip {T : Type u} {N : Nat}
    (b : Backend) (xs : List T) (h : b = Backend.fixed → xs.length ≤ N) :
    (tryPushSeq (svNew T N b) xs).1 = true
    ∧ svLen (tryPushSeq (svNew T N b) xs).2 = xs.length
    ∧ (popN (tryPushSeq (svNew T N b) xs).2 xs.length).1 = xs.reverse
    ∧ (svPop (popN (tryPushSeq (svNew T N b) xs).2 xs.length).2).1 = none := by
  have hseq := tryPushSeq_spec xs (svNew T N b) (by
    intro hb
    rw [svBackend_svNew] at hb
    have hx := h hb
    simp [svLen, svElems_svNew]
    omega)
  have helems : svElems (tryPushSeq (svNew T N b) xs).2 = xs := by
    simpa [svElems_svNew] using hseq.2.1
  have hpop := popN_spec xs (tryPushSeq (svNew T N b) xs).2 helems
  refine ⟨hseq.1, by simp [svLen, helems], hpop.1, ?_⟩
  rw [(svPop_spec _).1, hpop.2.1]
  rfl

/-- Witness for C7 at `N = 2` on the fixed backend with pushes `[1, 2]`. -/
theorem C7_push_pop_roundtrip_witness :
    (tryPushSeq (svNew Nat 2 Backend.fixed) [1, 2]).1 = true
    ∧ svLen (tryPushSeq (svNew Nat 2 Backend.fixed) [1, 2]).2 = 2
    ∧ (popN (tryPushSeq (svNew Nat 2 Backend.fixed) [1, 2]).2 2).1 = [2, 1]
    ∧ (svPop (popN (tryPushSeq (svNew Nat 2 Backend.fixed) [1, 2]).2 2).2).1 = none :=
  C7_push_pop_roundtrip Backend.fixed [1, 2] (fun _ => by decide)

/-- C8: converting any container (any backend) into its owning iterator and
collecting every yielded value reconstructs the original element sequence
exactly — each element appears exactly once, in order. -/
theorem C8_into_iter_collect {T : Type u} {N : Nat} (s : SVState T N) :
    iterCollect (intoIter s) = svElems s :=
  iterCollect_eq (svBackend s) (svElems s)

/-- C9: the claim says `clone` always produces an identical, independent
container.  On the hybrid backend, `cloner` writes the `len` cloned
elements into a fresh inline array of size `N`, so a spilled container with
`len > N` — reachable by two pushes with `N = 1`, as computed here — makes
`arr[i]` panic with an index out of bounds instead of returning a clone. -/
theorem C9_clone_spilled_hybrid_panics :
    (tryPushSeq (svNew Nat 1 Backend.hybrid) [1, 2]).1 = true
    ∧ (tryPushSeq (svNew Nat 1 Backend.hybrid) [1, 2]).2 = SVState.hybridHeap [1, 2]
    ∧ svClone (SVState.hybridHeap [1, 2] : SVState Nat 1)
        = Except.error PanicKind.indexOutOfBounds := by
  refine ⟨rfl, rfl, rfl⟩

/-- C10: on every backend, `try_insert` at an index strictly beyond `len`
panics in the underlying buffer's index assertion and never returns the
item back as `Err`; conversely, the only `Err` outcome `try_insert` can
produce is the capacity rejection of a full fixed-capacity container, which
hands back exactly the item and leaves the state unchanged. -/
theorem C10_try_insert_errors {T : Type u} {N : Nat}
    (s : SVState T N) (item : T) (index : Nat) :
    (index > svLen s → tryInsert s item index = Except.error PanicKind.indexOutOfBounds)
    ∧ (∀ r s', WF s → tryInsert s item index = Except.ok (some r, s') →
        svBackend s = Backend.fixed ∧ svLen s = N ∧ r = item ∧ s' = s) := by
  constructor
  · intro hgt
    cases s <;> simp_all [tryInsert, svLen, svElems]
  · intro r s' hwf heq
    cases s with
    | fixed elems =>
        by_cases hib : index > elems.length
        · simp [tryInsert, hib] at heq
        · by_cases hcap : elems.length < N
          · simp [tryInsert, hib, hcap] at heq
          · simp [tryInsert, hib, hcap] at heq
            simp only [WF] at hwf
            exact ⟨rfl, by simp [svLen, svElems]; omega, heq.1.symm, heq.2.symm⟩
    | heap elems =>
        by_cases hib : index > elems.length <;> simp [tryInsert, hib] at heq
    | hybridInline elems =>
        by_cases hib : index > elems.length
        · simp [tryInsert, hib] at heq
        · by_cases hN2 : elems.length = N
          · have hnlt : ¬ N < index := by omega
            simp [tryInsert, hib, hN2, hnlt] at heq
          · simp [tryInsert, hib, hN2] at heq
    | hybridHeap elems =>
        by_cases hib : index > elems.length <;> simp [tryInsert, hib] at heq

/-- Witness for C10 at `N = 2`: inserting past the end of a heap-backed
container panics, and the full fixed container's rejection returns the
item with the state unchanged. -/
theorem C10_try_insert_errors_witness :
    tryInsert (SVState.heap [1] : SVState Nat 2) 5 2
        = Except.error PanicKind.indexOutOfBounds
    ∧ (svBackend (SVState.fixed [1, 2] : SVState Nat 2) = Backend.fixed
       ∧ svLen (SVState.fixed [1, 2] : SVState Nat 2) = 2
       ∧ (5 : Nat) = 5
       ∧ (SVState.fixed [1, 2] : SVState Nat 2) = SVState.fixed [1, 2]) :=
  ⟨(C10_try_insert_errors (SVState.heap [1]) 5 2).1 (by decide),
   (C10_try_insert_errors (SVState.fixed [1, 2]) 5 0).2 5 (SVState.fixed [1, 2])
     (by decide) rfl⟩

end StorageVec
